import Mathlib

/-!
Verification of the image-generation bot in `main.py`.

The bot's request-handling core is embedded shallowly:

* strings are `List Char` (`Str`);
* the wall clock readings taken by `time.time()` are explicit rational
  parameters collected in a `Clock` record;
* the external inference call `self.client.text_to_image` is an oracle
  `Str → CallOutcome α`: it either raises an exception or returns a value,
  and the returned value may be null (`Option α`);
* the side effects performed by a request handler (replies, the status
  message, inference calls, the photo, the terminal delete/edit) are
  recorded in order as a trace of `Event`s;
* Python's `f"{x:.2f}"` float formatting is idealised as exact
  round-half-even rendering of rationals (`fixedStr`).
-/

abbrev Str := List Char

/-- Whitespace characters recognised by Python's `str.strip()` and
`str.split()` (the ASCII ones; the bot's prompts are the only inputs). -/
def isPySpace (c : Char) : Bool :=
  c = ' ' || c = '\t' || c = '\n' || c = '\r' || c = '\x0b' || c = '\x0c'

/-- Python `s.strip()`: drop leading and trailing whitespace. -/
def pyStrip (s : Str) : Str :=
  ((s.dropWhile isPySpace).reverse.dropWhile isPySpace).reverse

/-- Helper for `pySplit`; `acc` holds the reversed current token. -/
def pySplitAux : Str → Str → List Str
  | [], acc => if acc = [] then [] else [acc.reverse]
  | c :: cs, acc =>
    if isPySpace c then
      if acc = [] then pySplitAux cs [] else acc.reverse :: pySplitAux cs []
    else pySplitAux cs (c :: acc)

/-- Modelled from the spec: the messaging framework delivers a group
command's argument string as tokens (`context.args`), produced by Python
`str.split()` with no separator — split on runs of whitespace, no empty
tokens.  The tokenisation itself is framework code, not in `main.py`. -/
def pySplit (s : Str) : List Str := pySplitAux s []

/-- Python `' '.join(args)` (main.py line 151). -/
def joinSpace : List Str → Str
  | [] => []
  | [t] => t
  | t :: t2 :: ts => t ++ ' ' :: joinSpace (t2 :: ts)

/-- Python `str.split(sep)` for a single-character separator. -/
def splitOnChar (sep : Char) : Str → List Str
  | [] => [[]]
  | c :: cs =>
    match splitOnChar sep cs with
    | [] => [[]]
    | h :: t => if c = sep then [] :: h :: t else (c :: h) :: t

/-- Python `model.split('/')[-1]` (main.py line 234): the final path
segment of a model identifier. -/
def shortName (model : Str) : Str := (splitOnChar '/' model).getLastD []

/-- Round `n / d` (with `d > 0`) to the nearest integer, ties to even:
the rounding used by Python's fixed-point float formatting. -/
def rndHalfEven (n d : ℤ) : ℤ :=
  let f := Int.fdiv n d
  let r2 := 2 * (n - f * d)
  if r2 < d then f else if d < r2 then f + 1 else if f % 2 = 0 then f else f + 1

/-- Left-pad a digit string with zeros to length `d`. -/
def padZeros (d : Nat) (s : Str) : Str :=
  List.replicate (d - s.length) '0' ++ s

/-- Python `f"{q:.df}"`: `q` rendered with exactly `d` decimal places,
round half to even. -/
def fixedStr (d : Nat) (q : ℚ) : Str :=
  let n : ℤ := rndHalfEven (q.num * ((10 ^ d : ℕ) : ℤ)) (q.den : ℤ)
  let sign : Str := if n < 0 then ['-'] else []
  let m := n.natAbs
  let ip := m / 10 ^ d
  let fp := m % 10 ^ d
  sign ++ Nat.toDigits 10 ip ++ (if d = 0 then [] else '.' :: padZeros d (Nat.toDigits 10 fp))

/-- The inner `format_time` helper (main.py lines 224-228): two decimal
places below one second, one decimal place otherwise, suffixed `s`. -/
def format_time (seconds : ℚ) : Str :=
  if seconds < 1 then fixedStr 2 seconds ++ ['s'] else fixedStr 1 seconds ++ ['s']

/-- The failure message's elapsed-time rendering `f"{error_time:.1f}s"`
(main.py line 261): always one decimal place. -/
def errorTimeDisplay (t : ℚ) : Str := fixedStr 1 t ++ ['s']

/-- The failure message's error rendering
`error_msg[:100]` followed by `'...' if len(error_msg) > 100 else ''`
(main.py line 262). -/
def errDisplay (error_msg : Str) : Str :=
  error_msg.take 100 ++ (if 100 < error_msg.length then "...".toList else [])

/-- Result of one external inference call: the call either raises an
exception or returns, and a returned image may be null. -/
inductive CallOutcome (α : Type) where
  | raises (message : Str)
  | returns (value : Option α)
deriving DecidableEq

/-- One observable side effect of a request handler, in order:
a plain text reply, creation of the status message, one inference call,
the photo reply, deletion of the status message, an in-place edit of the
status message. -/
inductive Event (α : Type) where
  | replyText (text : Str)
  | createStatus (text : Str)
  | inferCall (model : Str)
  | sendPhoto (image : α) (caption : Str)
  | deleteStatus
  | editStatus (text : Str)
deriving DecidableEq

/-- The wall-clock readings a request takes: line 175 (`start_time`),
line 200 (`generation_start`), lines 215 and 216 (ends of the success
timing), line 252 (failure timing). -/
structure Clock where
  start_time : ℚ
  generation_start : ℚ
  gen_end : ℚ
  total_end : ℚ
  error_end : ℚ

def isCallEvent {α : Type} : Event α → Bool
  | Event.inferCall _ => true
  | _ => false

def isCreateEvent {α : Type} : Event α → Bool
  | Event.createStatus _ => true
  | _ => false

def isPhotoEvent {α : Type} : Event α → Bool
  | Event.sendPhoto _ _ => true
  | _ => false

def isDeleteEvent {α : Type} : Event α → Bool
  | Event.deleteStatus => true
  | _ => false

def isEditEvent {α : Type} : Event α → Bool
  | Event.editStatus _ => true
  | _ => false

def isTerminalEvent {α : Type} (e : Event α) : Bool :=
  isDeleteEvent e || isEditEvent e

/-- Reply of main.py lines 165. -/
def providePromptMsg : Str := "Please provide a description for the image!".toList

/-- Reply of main.py line 169. -/
def keepUnder500Msg : Str := "Please keep your description under 500 characters!".toList

/-- Usage reminder of main.py lines 144-148. -/
def usageReminderMsg : Str :=
  "❗ **Usage:** `/medusaXD <description>`\n\n**Example:** `/medusaXD Astronaut riding a horse`".toList

/-- The single undifferentiated exhaustion error (main.py line 213). -/
def allModelsFailedMsg : Str := "All models failed to generate image".toList

/-- Status message text (main.py lines 179-185). -/
def statusText (user_prompt username : Str) : Str :=
  "🎨 **Generating your image...**\n\n**Prompt:** `".toList ++ user_prompt
    ++ "`\n**Requested by:** @".toList ++ username
    ++ "\n⏳ This may take 10-30 seconds...".toList

/-- Fixed fragments of the success caption (main.py lines 231-238). -/
def capHead : Str := "🎨 **Generated Image**\n\n**Prompt:** `".toList

def capModel : Str := "`\n**Model:** `".toList

def capBy : Str := "`\n**Requested by:** @".toList

def capGen : Str := "\n⏱️ **Generation Time:** ".toList

def capTot : Str := "\n🕐 **Total Time:** ".toList

/-- Success caption (main.py lines 231-238). -/
def successCaption (user_prompt used_model username : Str)
    (generation_time total_time : ℚ) : Str :=
  capHead ++ user_prompt
    ++ capModel ++ shortName used_model
    ++ capBy ++ username
    ++ capGen ++ format_time generation_time
    ++ capTot ++ format_time total_time

/-- Failure edit text (main.py lines 255-264). -/
def failureText (user_prompt username : Str) (error_time : ℚ) (error_msg : Str) : Str :=
  "❌ **Generation Failed**\n\nSorry, I couldn\x27t generate an image for that prompt.\nPlease try again with a different description.\n\n**Prompt:** `".toList
    ++ user_prompt
    ++ "`\n**Requested by:** @".toList ++ username
    ++ "\n⏱️ **Time elapsed:** ".toList ++ errorTimeDisplay error_time
    ++ "\n**Error:** `".toList ++ errDisplay error_msg ++ "`".toList

/-- The fixed candidate list (main.py lines 192-196). -/
def models_to_try : List Str :=
  ["black-forest-labs/FLUX.1-dev".toList,
   "stabilityai/stable-diffusion-xl-base-1.0".toList,
   "runwayml/stable-diffusion-v1-5".toList]

/-- The fallback loop (main.py lines 202-210): try each candidate in
order; an exception is logged and the loop continues; any return (even a
null image) sets `image` and `used_model` and breaks.  Produces the list
of inference-call events and `some (image, used_model)` if the loop
broke, `none` if it exhausted the candidates. -/
def tryLoop {α : Type} (call : Str → CallOutcome α) :
    List Str → List (Event α) × Option (Option α × Str)
  | [] => ([], none)
  | m :: ms =>
    match call m with
    | CallOutcome.returns v => ([Event.inferCall m], some (v, m))
    | CallOutcome.raises _ =>
      let r := tryLoop call ms
      (Event.inferCall m :: r.1, r.2)

/-- `generate_image_logic` (main.py lines 159-264) as an event trace:
validation (lines 164-170), status message (179), the fallback loop
(202-210), the null check and generic exhaustion error (212-213), the
success reply and status delete (240-247), the failure edit (255-264). -/
def generate_image_logic {α : Type} (call : Str → CallOutcome α) (ck : Clock)
    (username user_prompt : Str) : List (Event α) :=
  if user_prompt = [] then [Event.replyText providePromptMsg]
  else if 500 < user_prompt.length then [Event.replyText keepUnder500Msg]
  else
    match (tryLoop call models_to_try).2 with
    | some (some img, used_model) =>
      Event.createStatus (statusText user_prompt username)
        :: (tryLoop call models_to_try).1
        ++ [Event.sendPhoto img
              (successCaption user_prompt used_model username
                (ck.gen_end - ck.generation_start) (ck.total_end - ck.start_time)),
            Event.deleteStatus]
    | _ =>
      Event.createStatus (statusText user_prompt username)
        :: (tryLoop call models_to_try).1
        ++ [Event.editStatus
              (failureText user_prompt username (ck.error_end - ck.start_time)
                allModelsFailedMsg)]

/-- `generate_image_private` (main.py lines 154-157): strip the raw
message text and run the core logic. -/
def generate_image_private {α : Type} (call : Str → CallOutcome α) (ck : Clock)
    (username raw_text : Str) : List (Event α) :=
  generate_image_logic call ck username (pyStrip raw_text)

/-- `medusa_command` (main.py lines 140-152): with no arguments reply
with the usage reminder; otherwise join the argument tokens with single
spaces, strip, and run the core logic. -/
def medusa_command {α : Type} (call : Str → CallOutcome α) (ck : Clock)
    (username : Str) (args : List Str) : List (Event α) :=
  if args = [] then [Event.replyText usageReminderMsg]
  else generate_image_logic call ck username (pyStrip (joinSpace args))

/-- No two adjacent whitespace characters anywhere in the string. -/
def noAdjSpace : Str → Bool
  | c1 :: c2 :: r => (!(isPySpace c1 && isPySpace c2)) && noAdjSpace (c2 :: r)
  | _ => true

/-- An argument token as the framework produces it: nonempty and free of
whitespace. -/
def goodToken (t : Str) : Prop := t ≠ [] ∧ ∀ c ∈ t, isPySpace c = false

/-- Concrete oracle: every candidate raises. -/
def callRaiseW : Str → CallOutcome Unit := fun _ => CallOutcome.raises "busy".toList

/-- Concrete oracle: every candidate returns a null image without raising. -/
def callNullW : Str → CallOutcome Unit := fun _ => CallOutcome.returns none

/-- Concrete oracle: every candidate succeeds with an image. -/
def callFirstW : Str → CallOutcome Unit := fun _ => CallOutcome.returns (some ())

/-- Concrete oracle: only the candidate `"cc/d"` succeeds. -/
def callSecondW : Str → CallOutcome Unit := fun m =>
  if m = "cc/d".toList then CallOutcome.returns (some ()) else CallOutcome.raises "e".toList

/-- Concrete clock with all readings zero. -/
def ckZero : Clock := ⟨0, 0, 0, 0, 0⟩

/-- Concrete clock whose failure-path elapsed time is half a second. -/
def ckHalf : Clock := ⟨0, 0, 0, 0, 1/2⟩

/-- Concrete monotone clock: dispatch takes 1 second, the request 2. -/
def ckMono : Clock := ⟨0, 0, 1, 2, 0⟩

/-! Helper lemmas about the fallback loop and the trace. -/

theorem tryLoop_all_raises {α : Type} (call : Str → CallOutcome α) :
    ∀ ms : List Str, (∀ m ∈ ms, ∃ msg, call m = CallOutcome.raises msg) →
      tryLoop call ms = (ms.map Event.inferCall, none) := by
  intro ms
  induction ms with
  | nil => intro _; rfl
  | cons m ms ih =>
    intro h
    obtain ⟨msg, hm⟩ := h m (List.mem_cons_self m ms)
    have hrec := ih (fun x hx => h x (List.mem_cons_of_mem m hx))
    simp [tryLoop, hm, hrec]

theorem tryLoop_stops {α : Type} (call : Str → CallOutcome α) :
    ∀ (ms : List Str) (K : ℕ) (hK : K < ms.length) (v : Option α),
      (∀ i (hi : i < K), ∃ msg, call (ms.get ⟨i, hi.trans hK⟩) = CallOutcome.raises msg) →
      call (ms.get ⟨K, hK⟩) = CallOutcome.returns v →
      tryLoop call ms = ((ms.take (K + 1)).map Event.inferCall, some (v, ms.get ⟨K, hK⟩)) := by
  intro ms
  induction ms with
  | nil => intro K hK; exact absurd hK (Nat.not_lt_zero K)
  | cons m ms ih =>
    intro K hK v hfail hret
    cases K with
    | zero =>
      have hm : call m = CallOutcome.returns v := hret
      simp [tryLoop, hm]
    | succ K =>
      obtain ⟨msg, hm0⟩ := hfail 0 (Nat.succ_pos K)
      have hm : call m = CallOutcome.raises msg := hm0
      have hrec := ih K (Nat.lt_of_succ_lt_succ hK) v
        (fun i hi => hfail (i + 1) (Nat.succ_lt_succ hi)) hret
      simp [tryLoop, hm, hrec]

theorem tryLoop_trace_shape {α : Type} (call : Str → CallOutcome α) :
    ∀ ms : List Str, ∃ pfx : List Str, (tryLoop call ms).1 = pfx.map Event.inferCall := by
  intro ms
  induction ms with
  | nil => exact ⟨[], rfl⟩
  | cons m ms ih =>
    obtain ⟨pfx, hp⟩ := ih
    cases hc : call m with
    | returns v => exact ⟨[m], by simp [tryLoop, hc]⟩
    | raises msg => exact ⟨m :: pfx, by simp [tryLoop, hc, hp]⟩

theorem countP_map_inferCall_zero {α : Type} (p : Event α → Bool)
    (hp : ∀ m : Str, p (Event.inferCall m) = false) :
    ∀ pfx : List Str, (pfx.map Event.inferCall).countP p = 0 := by
  intro pfx
  induction pfx with
  | nil => rfl
  | cons m pfx ih => simp [List.countP_cons, ih, hp]

theorem countP_map_inferCall_length {α : Type} :
    ∀ pfx : List Str, ((pfx.map (Event.inferCall (α := α))).countP isCallEvent) = pfx.length := by
  intro pfx
  induction pfx with
  | nil => rfl
  | cons m pfx ih => simp [List.countP_cons, ih, isCallEvent]

theorem genLogic_success_eq {α : Type} (call : Str → CallOutcome α) (ck : Clock)
    (u p : Str) (img : α) (um : Str)
    (hp : p ≠ []) (hl : ¬ 500 < p.length)
    (h : (tryLoop call models_to_try).2 = some (some img, um)) :
    generate_image_logic call ck u p
      = Event.createStatus (statusText p u) :: (tryLoop call models_to_try).1
          ++ [Event.sendPhoto img
                (successCaption p um u (ck.gen_end - ck.generation_start)
                  (ck.total_end - ck.start_time)),
              Event.deleteStatus] := by
  unfold generate_image_logic
  rw [if_neg hp, if_neg hl, h]

theorem genLogic_exhaust_eq {α : Type} (call : Str → CallOutcome α) (ck : Clock)
    (u p : Str)
    (hp : p ≠ []) (hl : ¬ 500 < p.length)
    (h : (tryLoop call models_to_try).2 = none) :
    generate_image_logic call ck u p
      = Event.createStatus (statusText p u) :: (tryLoop call models_to_try).1
          ++ [Event.editStatus
                (failureText p u (ck.error_end - ck.start_time) allModelsFailedMsg)] := by
  unfold generate_image_logic
  rw [if_neg hp, if_neg hl, h]

theorem genLogic_null_eq {α : Type} (call : Str → CallOutcome α) (ck : Clock)
    (u p : Str) (um : Str)
    (hp : p ≠ []) (hl : ¬ 500 < p.length)
    (h : (tryLoop call models_to_try).2 = some (none, um)) :
    generate_image_logic call ck u p
      = Event.createStatus (statusText p u) :: (tryLoop call models_to_try).1
          ++ [Event.editStatus
                (failureText p u (ck.error_end - ck.start_time) allModelsFailedMsg)] := by
  unfold generate_image_logic
  rw [if_neg hp, if_neg hl, h]

/-- C1: for every candidate list and every K below its length, if the
inference call raises for the first K candidates and returns an image for
candidate K+1, then the dispatcher loop stops there, records that
candidate as the one used, and the trace holds exactly K+1 inference
calls. -/
theorem claim1_dispatch_stops_at_first_success {α : Type} (call : Str → CallOutcome α)
    (ms : List Str) (K : ℕ) (img : α) (hK : K < ms.length)
    (hfail : ∀ i (hi : i < K), ∃ msg, call (ms.get ⟨i, hi.trans hK⟩) = CallOutcome.raises msg)
    (hsucc : call (ms.get ⟨K, hK⟩) = CallOutcome.returns (some img)) :
    tryLoop call ms = ((ms.take (K + 1)).map Event.inferCall, some (some img, ms.get ⟨K, hK⟩))
      ∧ (tryLoop call ms).1.countP isCallEvent = K + 1 := by
  have h := tryLoop_stops call ms K hK (some img) hfail hsucc
  refine ⟨h, ?_⟩
  rw [h]
  simp only [countP_map_inferCall_length, List.length_take]
  omega

/-- Witness for C1 at a two-candidate list whose first candidate raises
and whose second succeeds. -/
theorem claim1_witness :
    tryLoop callSecondW ["aa/b".toList, "cc/d".toList]
        = (((["aa/b".toList, "cc/d".toList] : List Str).take (1 + 1)).map Event.inferCall,
           some (some (), (["aa/b".toList, "cc/d".toList] : List Str).get ⟨1, by decide⟩))
      ∧ (tryLoop callSecondW ["aa/b".toList, "cc/d".toList]).1.countP isCallEvent = 1 + 1 :=
  claim1_dispatch_stops_at_first_success callSecondW ["aa/b".toList, "cc/d".toList] 1 ()
    (by decide)
    (fun i hi => ⟨"e".toList, by
      have h0 : i = 0 := by omega
      subst h0
      exact (by decide : callSecondW "aa/b".toList = CallOutcome.raises "e".toList)⟩)
    (by decide)

/-- C2: for every validated prompt, if the inference call raises for all
candidates, then exactly one call per candidate happens, no photo is
produced, and the request terminates with the single generic
all-models-failed edit; generically, exhausting any candidate list makes
exactly one call per candidate and yields no image. -/
theorem claim2_all_candidates_fail {α : Type} (call : Str → CallOutcome α) (ck : Clock)
    (u p : Str)
    (hp : p ≠ []) (hl : p.length ≤ 500)
    (hfail : ∀ m ∈ models_to_try, ∃ msg, call m = CallOutcome.raises msg) :
    generate_image_logic call ck u p
      = Event.createStatus (statusText p u) :: models_to_try.map Event.inferCall
          ++ [Event.editStatus
                (failureText p u (ck.error_end - ck.start_time) allModelsFailedMsg)]
      ∧ (generate_image_logic call ck u p).countP isCallEvent = models_to_try.length
      ∧ (generate_image_logic call ck u p).countP isPhotoEvent = 0
      ∧ ∀ ms : List Str, (∀ m ∈ ms, ∃ msg, call m = CallOutcome.raises msg) →
          tryLoop call ms = (ms.map Event.inferCall, none) := by
  have htl := tryLoop_all_raises call models_to_try hfail
  have h2 : (tryLoop call models_to_try).2 = none := by rw [htl]
  have heq := genLogic_exhaust_eq call ck u p hp (Nat.not_lt.mpr hl) h2
  rw [htl] at heq
  refine ⟨heq, ?_, ?_, fun ms h => tryLoop_all_raises call ms h⟩
  · rw [heq]
    simp [List.countP_cons, List.countP_append, countP_map_inferCall_length,
      isCallEvent]
  · rw [heq]
    simp [List.countP_cons, List.countP_append,
      countP_map_inferCall_zero isPhotoEvent (fun _ => rfl), isPhotoEvent]

/-- Witness for C2: all three configured candidates raise. -/
theorem claim2_witness :
    generate_image_logic callRaiseW ckZero "bob".toList "cat".toList
      = Event.createStatus (statusText "cat".toList "bob".toList)
          :: models_to_try.map Event.inferCall
          ++ [Event.editStatus
                (failureText "cat".toList "bob".toList (ckZero.error_end - ckZero.start_time)
                  allModelsFailedMsg)]
      ∧ (generate_image_logic callRaiseW ckZero "bob".toList "cat".toList).countP isCallEvent
          = models_to_try.length
      ∧ (generate_image_logic callRaiseW ckZero "bob".toList "cat".toList).countP isPhotoEvent
          = 0
      ∧ ∀ ms : List Str, (∀ m ∈ ms, ∃ msg, callRaiseW m = CallOutcome.raises msg) →
          tryLoop callRaiseW ms = (ms.map Event.inferCall, none) :=
  claim2_all_candidates_fail callRaiseW ckZero "bob".toList "cat".toList
    (by decide) (by decide) (fun m _ => ⟨"busy".toList, rfl⟩)

/-- C3: for every raw prompt, after stripping, a prompt of length 1..500
passes validation and dispatch proceeds (the status message is created);
an empty or whitespace-only prompt, or one longer than 500 characters,
draws the corresponding rejection reply and nothing else happens — no
inference call and no status message. -/
theorem claim3_prompt_validation {α : Type} (call : Str → CallOutcome α) (ck : Clock)
    (u raw : Str) :
    (pyStrip raw ≠ [] → (pyStrip raw).length ≤ 500 →
        ∃ rest, generate_image_private call ck u raw
          = Event.createStatus (statusText (pyStrip raw) u) :: rest)
  ∧ (pyStrip raw = [] →
        generate_image_private call ck u raw = [Event.replyText providePromptMsg]
        ∧ (generate_image_private call ck u raw).countP isCallEvent = 0
        ∧ (generate_image_private call ck u raw).countP isCreateEvent = 0)
  ∧ (500 < (pyStrip raw).length →
        generate_image_private call ck u raw = [Event.replyText keepUnder500Msg]
        ∧ (generate_image_private call ck u raw).countP isCallEvent = 0
        ∧ (generate_image_private call ck u raw).countP isCreateEvent = 0) := by
  refine ⟨?_, ?_, ?_⟩
  · intro hne hlen
    unfold generate_image_private generate_image_logic
    rw [if_neg hne, if_neg (Nat.not_lt.mpr hlen)]
    cases h2 : (tryLoop call models_to_try).2 with
    | none => exact ⟨_, rfl⟩
    | some vu =>
      cases vu with
      | mk v um =>
        cases v with
        | none => exact ⟨_, rfl⟩
        | some img => exact ⟨_, rfl⟩
  · intro h0
    unfold generate_image_private generate_image_logic
    rw [if_pos h0]
    exact ⟨rfl, rfl, rfl⟩
  · intro hlong
    have hne : pyStrip raw ≠ [] := by
      intro h
      rw [h] at hlong
      simp at hlong
    unfold generate_image_private generate_image_logic
    rw [if_neg hne, if_pos hlong]
    exact ⟨rfl, rfl, rfl⟩

/-- Witness for C3 on the raw text "  a fox  ", whose stripped form has
length 5. -/
theorem claim3_witness :
    ∃ rest, generate_image_private callRaiseW ckZero "bob".toList "  a fox  ".toList
      = Event.createStatus (statusText (pyStrip "  a fox  ".toList) "bob".toList) :: rest :=
  (claim3_prompt_validation callRaiseW ckZero "bob".toList "  a fox  ".toList).1
    (by decide) (by decide)

/-- C5: error text longer than 100 characters is shown as exactly its
first 100 characters followed by the ellipsis marker; text of at most 100
characters is shown unmodified. -/
theorem claim5_error_truncation (s : Str) :
    (100 < s.length →
        errDisplay s = s.take 100 ++ "...".toList ∧ (s.take 100).length = 100)
  ∧ (s.length ≤ 100 → errDisplay s = s) := by
  constructor
  · intro h
    constructor
    · simp [errDisplay, h]
    · rw [List.length_take]
      omega
  · intro h
    have h2 : ¬ 100 < s.length := Nat.not_lt.mpr h
    simp [errDisplay, h2, List.take_of_length_le h]

/-- Witness for C5 on a 101-character error text. -/
theorem claim5_witness :
    errDisplay (List.replicate 101 'a')
        = (List.replicate 101 'a').take 100 ++ "...".toList
      ∧ ((List.replicate 101 'a').take 100).length = 100 :=
  (claim5_error_truncation (List.replicate 101 'a')).1 (by decide)

/-- C6: every validated request creates exactly one status message and
applies exactly one terminal action to it — delete exactly when a photo
was produced, edit exactly when none was. -/
theorem claim6_status_lifecycle {α : Type} (call : Str → CallOutcome α) (ck : Clock)
    (u p : Str) (hp : p ≠ []) (hl : p.length ≤ 500) :
    (generate_image_logic call ck u p).countP isCreateEvent = 1
  ∧ (generate_image_logic call ck u p).countP isTerminalEvent = 1
  ∧ ((generate_image_logic call ck u p).countP isDeleteEvent = 1
      ↔ (generate_image_logic call ck u p).countP isPhotoEvent = 1)
  ∧ ((generate_image_logic call ck u p).countP isEditEvent = 1
      ↔ (generate_image_logic call ck u p).countP isPhotoEvent = 0) := by
  obtain ⟨pfx, hpfx⟩ := tryLoop_trace_shape call models_to_try
  have hl2 := Nat.not_lt.mpr hl
  rcases h2 : (tryLoop call models_to_try).2 with _ | ⟨_ | img, um⟩
  · have heq := genLogic_exhaust_eq call ck u p hp hl2 h2
    rw [heq, hpfx]
    simp [List.countP_cons, List.countP_append,
      countP_map_inferCall_zero isCreateEvent (fun _ => rfl),
      countP_map_inferCall_zero isTerminalEvent (fun _ => rfl),
      countP_map_inferCall_zero isDeleteEvent (fun _ => rfl),
      countP_map_inferCall_zero isEditEvent (fun _ => rfl),
      countP_map_inferCall_zero isPhotoEvent (fun _ => rfl),
      isCreateEvent, isTerminalEvent, isDeleteEvent, isEditEvent, isPhotoEvent]
  · have heq := genLogic_null_eq call ck u p um hp hl2 h2
    rw [heq, hpfx]
    simp [List.countP_cons, List.countP_append,
      countP_map_inferCall_zero isCreateEvent (fun _ => rfl),
      countP_map_inferCall_zero isTerminalEvent (fun _ => rfl),
      countP_map_inferCall_zero isDeleteEvent (fun _ => rfl),
      countP_map_inferCall_zero isEditEvent (fun _ => rfl),
      countP_map_inferCall_zero isPhotoEvent (fun _ => rfl),
      isCreateEvent, isTerminalEvent, isDeleteEvent, isEditEvent, isPhotoEvent]
  · have heq := genLogic_success_eq call ck u p img um hp hl2 h2
    rw [heq, hpfx]
    simp [List.countP_cons, List.countP_append,
      countP_map_inferCall_zero isCreateEvent (fun _ => rfl),
      countP_map_inferCall_zero isTerminalEvent (fun _ => rfl),
      countP_map_inferCall_zero isDeleteEvent (fun _ => rfl),
      countP_map_inferCall_zero isEditEvent (fun _ => rfl),
      countP_map_inferCall_zero isPhotoEvent (fun _ => rfl),
      isCreateEvent, isTerminalEvent, isDeleteEvent, isEditEvent, isPhotoEvent]

/-- Witness for C6 on a validated request whose candidates all raise. -/
theorem claim6_witness :
    (generate_image_logic callRaiseW ckZero "bob".toList "cat".toList).countP isCreateEvent = 1
  ∧ (generate_image_logic callRaiseW ckZero "bob".toList "cat".toList).countP isTerminalEvent = 1
  ∧ ((generate_image_logic callRaiseW ckZero "bob".toList "cat".toList).countP isDeleteEvent = 1
      ↔ (generate_image_logic callRaiseW ckZero "bob".toList "cat".toList).countP isPhotoEvent = 1)
  ∧ ((generate_image_logic callRaiseW ckZero "bob".toList "cat".toList).countP isEditEvent = 1
      ↔ (generate_image_logic callRaiseW ckZero "bob".toList "cat".toList).countP isPhotoEvent = 0) :=
  claim6_status_lifecycle callRaiseW ckZero "bob".toList "cat".toList (by decide) (by decide)

/-- C7: a group command with no argument tokens draws the usage reminder
and nothing else — no inference call and no status message. -/
theorem claim7_group_no_argument {α : Type} (call : Str → CallOutcome α) (ck : Clock)
    (u : Str) :
    medusa_command call ck u ([] : List Str) = [Event.replyText usageReminderMsg]
  ∧ (medusa_command call ck u ([] : List Str)).countP isCallEvent = 0
  ∧ (medusa_command call ck u ([] : List Str)).countP isCreateEvent = 0 :=
  ⟨rfl, rfl, rfl⟩

/-- Bridge: the rational one half in normal form. -/
theorem ratHalf_eq : (1/2 : ℚ) = Rat.mk' 1 2 (by decide) (by decide) := by
  rw [Rat.mk'_eq_divInt, Rat.divInt_eq_div]
  norm_num

/-- Bridge: the rational 2.345 in normal form. -/
theorem rat2345_eq : (2345/1000 : ℚ) = Rat.mk' 469 200 (by decide) (by decide) := by
  rw [Rat.mk'_eq_divInt, Rat.divInt_eq_div]
  norm_num

/-- C4 counterexample: a request finalised on the failure path after half
a second displays its elapsed time as "0.5s" — one decimal place — while
the claim mandates the two-decimal rendering "0.50s" for every duration
below one second. -/
theorem claim4_counterexample :
    generate_image_logic callRaiseW ckHalf "bob".toList "cat".toList
      = Event.createStatus (statusText "cat".toList "bob".toList)
          :: models_to_try.map Event.inferCall
          ++ [Event.editStatus
                (failureText "cat".toList "bob".toList (1/2) allModelsFailedMsg)]
    ∧ errorTimeDisplay (1/2) = "0.5s".toList
    ∧ format_time (1/2) = "0.50s".toList
    ∧ errorTimeDisplay (1/2) ≠ format_time (1/2)
    ∧ (1/2 : ℚ) < 1 := by
  refine ⟨?_, ?_, ?_, ?_, by norm_num⟩
  · have htl := tryLoop_all_raises callRaiseW models_to_try
      (fun m _ => ⟨"busy".toList, rfl⟩)
    have h2 : (tryLoop callRaiseW models_to_try).2 = none := by rw [htl]
    have heq := genLogic_exhaust_eq callRaiseW ckHalf "bob".toList "cat".toList
      (by decide) (by decide) h2
    rw [htl] at heq
    have ht : ckHalf.error_end - ckHalf.start_time = (1/2 : ℚ) := by
      show (1/2 : ℚ) - 0 = 1/2
      rw [sub_zero]
    rw [ht] at heq
    exact heq
  · rw [ratHalf_eq]
    decide
  · rw [ratHalf_eq]
    decide
  · rw [ratHalf_eq]
    decide

/-- C4 (amended): the success-path helper `format_time` renders a
duration below one second with two decimal places (0.5 as "0.50s") and a
duration of at least one second with one decimal place (2.345 as "2.3s");
the failure path's elapsed time, however, is always rendered with one
decimal place regardless of magnitude. -/
theorem claim4_amended_time_formatting (q : ℚ) :
    (q < 1 → format_time q = fixedStr 2 q ++ ['s'])
  ∧ (1 ≤ q → format_time q = fixedStr 1 q ++ ['s'])
  ∧ errorTimeDisplay q = fixedStr 1 q ++ ['s']
  ∧ format_time (1/2) = "0.50s".toList
  ∧ format_time (2345/1000) = "2.3s".toList := by
  refine ⟨?_, ?_, rfl, ?_, ?_⟩
  · intro h
    unfold format_time
    rw [if_pos h]
  · intro h
    unfold format_time
    rw [if_neg (not_lt.mpr h)]
  · rw [ratHalf_eq]
    decide
  · rw [rat2345_eq]
    decide

/-- Witness for the amended C4 at the duration one half. -/
theorem claim4_amended_witness :
    format_time (1/2 : ℚ) = fixedStr 2 (1/2 : ℚ) ++ ['s'] :=
  (claim4_amended_time_formatting (1/2)).1 one_half_lt_one

/-- A fallback loop whose first candidate returns stops immediately. -/
theorem tryLoop_cons_returns {α : Type} (call : Str → CallOutcome α) (m : Str)
    (ms : List Str) (v : Option α) (h : call m = CallOutcome.returns v) :
    tryLoop call (m :: ms) = ([Event.inferCall m], some (v, m)) := by
  simp [tryLoop, h]

/-- C8: when the first candidate succeeds, the trace is status creation,
one inference call, the photo with its caption, and the status deletion;
the caption contains the prompt, the first candidate's short name (the
final path segment "FLUX.1-dev"), the requester handle, and the two
rendered duration figures, and the dispatch duration is at most the total
duration. -/
theorem claim8_first_candidate_success {α : Type} (call : Str → CallOutcome α) (ck : Clock)
    (u p : Str) (img : α)
    (hp : p ≠ []) (hl : p.length ≤ 500)
    (hcall : call "black-forest-labs/FLUX.1-dev".toList = CallOutcome.returns (some img))
    (h1 : ck.start_time ≤ ck.generation_start)
    (h2 : ck.generation_start ≤ ck.gen_end)
    (h3 : ck.gen_end ≤ ck.total_end) :
    generate_image_logic call ck u p
      = [Event.createStatus (statusText p u),
         Event.inferCall "black-forest-labs/FLUX.1-dev".toList,
         Event.sendPhoto img
           (successCaption p "black-forest-labs/FLUX.1-dev".toList u
             (ck.gen_end - ck.generation_start) (ck.total_end - ck.start_time)),
         Event.deleteStatus]
  ∧ (∃ s t, s ++ p ++ t
        = successCaption p "black-forest-labs/FLUX.1-dev".toList u
            (ck.gen_end - ck.generation_start) (ck.total_end - ck.start_time))
  ∧ shortName "black-forest-labs/FLUX.1-dev".toList = "FLUX.1-dev".toList
  ∧ (∃ s t, s ++ shortName "black-forest-labs/FLUX.1-dev".toList ++ t
        = successCaption p "black-forest-labs/FLUX.1-dev".toList u
            (ck.gen_end - ck.generation_start) (ck.total_end - ck.start_time))
  ∧ (∃ s t, s ++ u ++ t
        = successCaption p "black-forest-labs/FLUX.1-dev".toList u
            (ck.gen_end - ck.generation_start) (ck.total_end - ck.start_time))
  ∧ (∃ s t, s ++ format_time (ck.gen_end - ck.generation_start) ++ t
        = successCaption p "black-forest-labs/FLUX.1-dev".toList u
            (ck.gen_end - ck.generation_start) (ck.total_end - ck.start_time))
  ∧ (∃ s t, s ++ format_time (ck.total_end - ck.start_time) ++ t
        = successCaption p "black-forest-labs/FLUX.1-dev".toList u
            (ck.gen_end - ck.generation_start) (ck.total_end - ck.start_time))
  ∧ ck.gen_end - ck.generation_start ≤ ck.total_end - ck.start_time := by
  have htl : tryLoop call models_to_try
      = ([Event.inferCall "black-forest-labs/FLUX.1-dev".toList],
         some (some img, "black-forest-labs/FLUX.1-dev".toList)) :=
    tryLoop_cons_returns call "black-forest-labs/FLUX.1-dev".toList
      ["stabilityai/stable-diffusion-xl-base-1.0".toList,
       "runwayml/stable-diffusion-v1-5".toList] (some img) hcall
  have h2t : (tryLoop call models_to_try).2
      = some (some img, "black-forest-labs/FLUX.1-dev".toList) := by rw [htl]
  have heq := genLogic_success_eq call ck u p img "black-forest-labs/FLUX.1-dev".toList
    hp (Nat.not_lt.mpr hl) h2t
  rw [htl] at heq
  refine ⟨by rw [heq]; rfl, ?_, by decide, ?_, ?_, ?_, ?_, by linarith⟩
  · exact ⟨capHead,
      capModel ++ shortName "black-forest-labs/FLUX.1-dev".toList ++ capBy ++ u
        ++ capGen ++ format_time (ck.gen_end - ck.generation_start)
        ++ capTot ++ format_time (ck.total_end - ck.start_time),
      by simp [successCaption, List.append_assoc]⟩
  · exact ⟨capHead ++ p ++ capModel,
      capBy ++ u ++ capGen ++ format_time (ck.gen_end - ck.generation_start)
        ++ capTot ++ format_time (ck.total_end - ck.start_time),
      by simp [successCaption, List.append_assoc]⟩
  · exact ⟨capHead ++ p ++ capModel ++ shortName "black-forest-labs/FLUX.1-dev".toList
        ++ capBy,
      capGen ++ format_time (ck.gen_end - ck.generation_start)
        ++ capTot ++ format_time (ck.total_end - ck.start_time),
      by simp [successCaption, List.append_assoc]⟩
  · exact ⟨capHead ++ p ++ capModel ++ shortName "black-forest-labs/FLUX.1-dev".toList
        ++ capBy ++ u ++ capGen,
      capTot ++ format_time (ck.total_end - ck.start_time),
      by simp [successCaption, List.append_assoc]⟩
  · exact ⟨capHead ++ p ++ capModel ++ shortName "black-forest-labs/FLUX.1-dev".toList
        ++ capBy ++ u ++ capGen ++ format_time (ck.gen_end - ck.generation_start)
        ++ capTot,
      [],
      by simp [successCaption, List.append_assoc]⟩

/-- Witness for C8 on the spec's scenario prompt with a monotone clock. -/
theorem claim8_witness :
    generate_image_logic callFirstW ckMono "alice".toList "a red fox in snow".toList
      = [Event.createStatus (statusText "a red fox in snow".toList "alice".toList),
         Event.inferCall "black-forest-labs/FLUX.1-dev".toList,
         Event.sendPhoto ()
           (successCaption "a red fox in snow".toList "black-forest-labs/FLUX.1-dev".toList
             "alice".toList (ckMono.gen_end - ckMono.generation_start)
             (ckMono.total_end - ckMono.start_time)),
         Event.deleteStatus]
      ∧ ckMono.gen_end - ckMono.generation_start
          ≤ ckMono.total_end - ckMono.start_time :=
  ⟨(claim8_first_candidate_success callFirstW ckMono "alice".toList
      "a red fox in snow".toList () (by decide) (by decide) rfl
      (by norm_num [ckMono]) (by norm_num [ckMono]) (by norm_num [ckMono])).1,
   (claim8_first_candidate_success callFirstW ckMono "alice".toList
      "a red fox in snow".toList () (by decide) (by decide) rfl
      (by norm_num [ckMono]) (by norm_num [ckMono]) (by norm_num [ckMono])).2.2.2.2.2.2.2⟩

/-- C9: if, after K raising candidates, a candidate returns a null image
without raising, the loop stops there and records that candidate as the
one used (no later candidate is tried, exactly K+1 calls happen), yet the
request still terminates on the failure path with the generic
all-models-failed error. -/
theorem claim9_null_image_failure {α : Type} (call : Str → CallOutcome α) (ck : Clock)
    (u p : Str) (K : ℕ) (hK : K < models_to_try.length)
    (hp : p ≠ []) (hl : p.length ≤ 500)
    (hfail : ∀ i (hi : i < K), ∃ msg,
        call (models_to_try.get ⟨i, hi.trans hK⟩) = CallOutcome.raises msg)
    (hnull : call (models_to_try.get ⟨K, hK⟩) = CallOutcome.returns none) :
    tryLoop call models_to_try
      = ((models_to_try.take (K + 1)).map Event.inferCall,
         some (none, models_to_try.get ⟨K, hK⟩))
  ∧ generate_image_logic call ck u p
      = Event.createStatus (statusText p u)
          :: (models_to_try.take (K + 1)).map Event.inferCall
          ++ [Event.editStatus
                (failureText p u (ck.error_end - ck.start_time) allModelsFailedMsg)]
  ∧ ((models_to_try.take (K + 1)).map (Event.inferCall (α := α))).countP isCallEvent
      = K + 1 := by
  have htl := tryLoop_stops call models_to_try K hK none hfail hnull
  have h2 : (tryLoop call models_to_try).2
      = some (none, models_to_try.get ⟨K, hK⟩) := by rw [htl]
  have heq := genLogic_null_eq call ck u p (models_to_try.get ⟨K, hK⟩) hp
    (Nat.not_lt.mpr hl) h2
  rw [htl] at heq
  refine ⟨htl, heq, ?_⟩
  rw [countP_map_inferCall_length, List.length_take]
  have hK1 : K + 1 ≤ models_to_try.length := hK
  omega

/-- Witness for C9: the first candidate returns a null image. -/
theorem claim9_witness :
    tryLoop callNullW models_to_try
      = ((models_to_try.take (0 + 1)).map Event.inferCall,
         some (none, models_to_try.get ⟨0, by decide⟩))
  ∧ generate_image_logic callNullW ckZero "bob".toList "cat".toList
      = Event.createStatus (statusText "cat".toList "bob".toList)
          :: (models_to_try.take (0 + 1)).map Event.inferCall
          ++ [Event.editStatus
                (failureText "cat".toList "bob".toList (ckZero.error_end - ckZero.start_time)
                  allModelsFailedMsg)]
  ∧ ((models_to_try.take (0 + 1)).map (Event.inferCall (α := Unit))).countP isCallEvent
      = 0 + 1 :=
  claim9_null_image_failure callNullW ckZero "bob".toList "cat".toList 0 (by decide)
    (by decide) (by decide) (fun i hi => absurd hi (Nat.not_lt_zero i)) rfl

/-- Every token produced by the whitespace split is nonempty and free of
whitespace, provided the accumulator already is. -/
theorem pySplitAux_goodTokens : ∀ (s acc : Str), (∀ c ∈ acc, isPySpace c = false) →
    ∀ t ∈ pySplitAux s acc, goodToken t := by
  intro s
  induction s with
  | nil =>
    intro acc hacc t ht
    by_cases h : acc = []
    · simp [pySplitAux, h] at ht
    · simp [pySplitAux, h] at ht
      subst ht
      refine ⟨by simpa using h, ?_⟩
      intro c hc
      exact hacc c (List.mem_reverse.mp hc)
  | cons c cs ih =>
    intro acc hacc t ht
    cases hsp : isPySpace c with
    | true =>
      by_cases h : acc = []
      · simp [pySplitAux, hsp, h] at ht
        exact ih [] (fun x hx => absurd hx (List.not_mem_nil x)) t ht
      · simp [pySplitAux, hsp, h] at ht
        rcases ht with ht | ht
        · subst ht
          refine ⟨by simpa using h, ?_⟩
          intro x hx
          exact hacc x (List.mem_reverse.mp hx)
        · exact ih [] (fun x hx => absurd hx (List.not_mem_nil x)) t ht
    | false =>
      simp [pySplitAux, hsp] at ht
      refine ih (c :: acc) ?_ t ht
      intro x hx
      rcases List.mem_cons.mp hx with h1 | h1
      · subst h1
        exact hsp
      · exact hacc x h1

/-- Joining good tokens starts with a non-whitespace character. -/
theorem joinSpace_head : ∀ (toks : List Str), toks ≠ [] →
    (∀ t ∈ toks, goodToken t) →
    ∃ c r, joinSpace toks = c :: r ∧ isPySpace c = false := by
  intro toks hne hgood
  cases toks with
  | nil => exact absurd rfl hne
  | cons t ts =>
    obtain ⟨htne, htc⟩ := hgood t (List.mem_cons_self t ts)
    cases t with
    | nil => exact absurd rfl htne
    | cons c r0 =>
      cases ts with
      | nil => exact ⟨c, r0, rfl, htc c (List.mem_cons_self c r0)⟩
      | cons t2 ts2 =>
        exact ⟨c, r0 ++ ' ' :: joinSpace (t2 :: ts2), by simp [joinSpace],
          htc c (List.mem_cons_self c r0)⟩

/-- Joining good tokens ends with a non-whitespace character. -/
theorem joinSpace_last : ∀ (toks : List Str), toks ≠ [] →
    (∀ t ∈ toks, goodToken t) →
    ∃ pre c, joinSpace toks = pre ++ [c] ∧ isPySpace c = false := by
  intro toks
  induction toks with
  | nil => intro hne; exact absurd rfl hne
  | cons t ts ih =>
    intro _ hgood
    cases ts with
    | nil =>
      obtain ⟨htne, htc⟩ := hgood t (List.mem_cons_self t [])
      refine ⟨t.dropLast, t.getLast htne, ?_, htc _ (List.getLast_mem htne)⟩
      simp [joinSpace]
      exact (List.dropLast_append_getLast htne).symm
    | cons t2 ts2 =>
      obtain ⟨pre, c, hpc, hc⟩ := ih (by simp)
        (fun x hx => hgood x (List.mem_cons_of_mem t hx))
      refine ⟨t ++ ' ' :: pre, c, ?_, hc⟩
      rw [joinSpace, hpc]
      simp [List.append_assoc]

/-- A string with no whitespace at all has no adjacent whitespace. -/
theorem noAdjSpace_of_noSpace : ∀ (l : Str), (∀ c ∈ l, isPySpace c = false) →
    noAdjSpace l = true := by
  intro l
  induction l with
  | nil => intro _; rfl
  | cons c1 l1 ih =>
    intro h
    cases l1 with
    | nil => rfl
    | cons c2 r =>
      have h1 : isPySpace c1 = false := h c1 (List.mem_cons_self _ _)
      have hrest := ih (fun x hx => h x (List.mem_cons_of_mem c1 hx))
      simp [noAdjSpace, h1, hrest]

/-- Appending a single space and a well-formed remainder to a
whitespace-free string keeps adjacent whitespace absent. -/
theorem noAdjSpace_append_sep : ∀ (t : Str), (∀ c ∈ t, isPySpace c = false) →
    ∀ (j : Str), noAdjSpace j = true →
    (j = [] ∨ ∃ cj rj, j = cj :: rj ∧ isPySpace cj = false) →
    noAdjSpace (t ++ ' ' :: j) = true := by
  intro t
  induction t with
  | nil =>
    intro _ j hj hhead
    rcases hhead with h | ⟨cj, rj, hj2, hcj⟩
    · subst h
      rfl
    · subst hj2
      simp [noAdjSpace, hcj, hj]
  | cons c t1 ih =>
    intro hc j hj hhead
    have h1 : isPySpace c = false := hc c (List.mem_cons_self _ _)
    have hrec := ih (fun x hx => hc x (List.mem_cons_of_mem c hx)) j hj hhead
    cases t1 with
    | nil =>
      simp only [List.nil_append, List.cons_append] at hrec ⊢
      simp [noAdjSpace, h1, hrec]
    | cons c2 t2 =>
      simp only [List.cons_append] at hrec ⊢
      simp [noAdjSpace, h1, hrec]

/-- Joining good tokens with single spaces yields no adjacent whitespace. -/
theorem joinSpace_noAdj : ∀ (toks : List Str), (∀ t ∈ toks, goodToken t) →
    noAdjSpace (joinSpace toks) = true := by
  intro toks
  induction toks with
  | nil => intro _; rfl
  | cons t ts ih =>
    intro hgood
    cases ts with
    | nil =>
      obtain ⟨_, htc⟩ := hgood t (List.mem_cons_self _ _)
      simpa [joinSpace] using noAdjSpace_of_noSpace t htc
    | cons t2 ts2 =>
      have hgood2 : ∀ x ∈ t2 :: ts2, goodToken x :=
        fun x hx => hgood x (List.mem_cons_of_mem t hx)
      have hj := ih hgood2
      obtain ⟨cj, rj, hj2, hcj⟩ := joinSpace_head (t2 :: ts2) (by simp) hgood2
      obtain ⟨_, htc⟩ := hgood t (List.mem_cons_self _ _)
      have hsep := noAdjSpace_append_sep t htc (joinSpace (t2 :: ts2)) hj
        (Or.inr ⟨cj, rj, hj2, hcj⟩)
      simpa [joinSpace] using hsep

/-- Stripping is the identity on a string that starts and ends with
non-whitespace characters. -/
theorem pyStrip_eq_self (l : Str)
    (hhead : ∃ c r, l = c :: r ∧ isPySpace c = false)
    (hlast : ∃ pre c, l = pre ++ [c] ∧ isPySpace c = false) :
    pyStrip l = l := by
  obtain ⟨c, r, h1, h2⟩ := hhead
  obtain ⟨pre, c2, h3, h4⟩ := hlast
  have hd : l.dropWhile isPySpace = l := by
    rw [h1, List.dropWhile_cons]
    simp [h2]
  have hr : l.reverse.dropWhile isPySpace = l.reverse := by
    rw [h3]
    simp [List.reverse_append, List.dropWhile_cons, h4]
  unfold pyStrip
  rw [hd, hr, List.reverse_reverse]

/-- C10: a group command with argument tokens submits to validation and
dispatch exactly the tokens joined by single spaces and stripped; since
the framework's tokens are nonempty and whitespace-free, that prompt
carries no adjacent whitespace — runs of whitespace in the original
command text are collapsed to single spaces. -/
theorem claim10_group_prompt_whitespace {α : Type} (call : Str → CallOutcome α)
    (ck : Clock) (u original : Str) (h : pySplit original ≠ []) :
    medusa_command call ck u (pySplit original)
      = generate_image_logic call ck u (pyStrip (joinSpace (pySplit original)))
  ∧ pyStrip (joinSpace (pySplit original)) = joinSpace (pySplit original)
  ∧ noAdjSpace (joinSpace (pySplit original)) = true := by
  have hgood : ∀ t ∈ pySplit original, goodToken t :=
    pySplitAux_goodTokens original [] (fun x hx => absurd hx (List.not_mem_nil x))
  refine ⟨?_, ?_, joinSpace_noAdj (pySplit original) hgood⟩
  · unfold medusa_command
    rw [if_neg h]
  · exact pyStrip_eq_self _ (joinSpace_head (pySplit original) h hgood)
      (joinSpace_last (pySplit original) h hgood)

/-- Witness for C10 on a command text with multi-space runs. -/
theorem claim10_witness :
    medusa_command callRaiseW ckZero "bob".toList (pySplit "a  red   fox".toList)
      = generate_image_logic callRaiseW ckZero "bob".toList
          (pyStrip (joinSpace (pySplit "a  red   fox".toList)))
  ∧ pyStrip (joinSpace (pySplit "a  red   fox".toList))
      = joinSpace (pySplit "a  red   fox".toList)
  ∧ noAdjSpace (joinSpace (pySplit "a  red   fox".toList)) = true :=
  claim10_group_prompt_whitespace callRaiseW ckZero "bob".toList "a  red   fox".toList
    (by decide)
